import Mathlib

/-!
Verification of the terminal busy-indicator in waiting.py.

The program consists of a single class, Animation, and one decorator,
wait_for_it.  An Animation instance holds one boolean field, finished.  A
class-level itertools.cycle over nine fixed strings is shared by all
instances.  The method start spawns a thread running the loop, which, while
finished is false, prints the next frame of the shared cycle with sep equal
to the empty string, end equal to a carriage return and flush set, then
sleeps 0.075 seconds.  The method stop sets finished and prints a clearing
frame of ten spaces the same way.  The context-manager entry calls start and
returns the instance; the context-manager exit calls stop and returns None,
so exceptions keep propagating.  The decorator wait_for_it runs the wrapped
callable inside a with-block over a fresh Animation.

The embedding records the observable effects as an event trace: thread
spawns, writes to standard output (text, sep, end, flush), and sleeps.  The
shared cycle is a cursor in a process-wide state, because the cycle is a
class attribute of Animation, not an instance attribute.
-/

/-- Observable events: the spawn of the background thread, a call of print
recording its text, its sep and end arguments and its flush flag, and a
sleep with its duration in milliseconds. -/
inductive Event where
  | spawn : Event
  | write (text sep term : String) (flush : Bool) : Event
  | sleep (ms : Nat) : Event
deriving DecidableEq

/-- Process-wide state: the cursor of the class-level cycle shared by all
Animation instances, and the trace of events emitted so far. -/
structure Sys where
  cursor : Nat
  output : List Event
deriving DecidableEq

/-- The nine frames passed to itertools.cycle in the class attribute symbol. -/
def symbolFrames : List String :=
  [" ...      ",
   "  ...     ",
   "   ...    ",
   "    ...   ",
   "     ...  ",
   "      ... ",
   "       ...",
   " .      ..",
   " ..      ."]

/-- The clearing frame printed by stop: ten spaces. -/
def clearFrame : String := "          "

/-- Effect of next on the shared cycle: return the frame at the cursor
position and advance the cursor.  The cycle repeats its nine frames forever,
hence the reduction of the cursor modulo the list length. -/
def nextSymbol (s : Sys) : String × Sys :=
  (symbolFrames.getD (s.cursor % symbolFrames.length) "",
   { s with cursor := s.cursor + 1 })

/-- Event of a call print(text, sep = empty, end = carriage return,
flush = True), the only form of printing the source uses. -/
def printCR (text : String) : Event :=
  Event.write text "" "\r" true

/-- An Animation instance: the constructor initializes the single
per-instance field finished to False. -/
structure Animation where
  finished : Bool
deriving DecidableEq

/-- Constructor effect: finished starts false; no other state is touched. -/
def Animation.init : Animation := { finished := false }

/-- Method start: spawn the background thread running the loop and return
immediately.  The instance and the shared cursor are untouched. -/
def Animation.start (a : Animation) (s : Sys) : Animation × Sys :=
  (a, { s with output := s.output ++ [Event.spawn] })

/-- Method stop: set finished to true and print the clearing frame with a
carriage-return terminator, flushed. -/
def Animation.stop (a : Animation) (s : Sys) : Animation × Sys :=
  ({ a with finished := true },
   { s with output := s.output ++ [printCR clearFrame] })

/-- Context-manager entry: call start, then yield the instance itself. -/
def Animation.enter (a : Animation) (s : Sys) : Animation × Sys :=
  a.start s

/-- Context-manager exit: call stop unconditionally.  The source ignores the
exception information and returns None, so an in-flight exception keeps
propagating after the cleanup. -/
def Animation.exit (a : Animation) (s : Sys) : Animation × Sys :=
  a.stop s

/-- The loop body run by the background thread.  The finished flag is
written by a different thread, so the list sched supplies the flag values
the loop observes at its successive while-checks.  A false observation runs
one iteration: take the next frame from the shared cycle, print it with a
carriage-return terminator and flush, then sleep 75 milliseconds.  A true
observation exits the loop.  An exhausted list cuts the trace off with the
loop still running. -/
def animateSched (sched : List Bool) (s : Sys) : Sys :=
  match sched with
  | [] => s
  | fin :: rest =>
    if fin then s
    else
      let (frame, s₁) := nextSymbol s
      animateSched rest
        { s₁ with output := s₁.output ++ [printCR frame, Event.sleep 75] }

/-- Iterated stop: n successive calls of stop on the same instance. -/
def Animation.stopN (a : Animation) : Nat → Sys → Animation × Sys
  | 0, s => (a, s)
  | n + 1, s =>
    let (a₁, s₁) := a.stop s
    a₁.stopN n s₁

/-- The with-statement over an Animation: enter, run the body on the yielded
instance, exit, then return the value of the body or let its error
propagate.  The body finishes with a value or an error, the instance as the
body left it, and the state it produced. -/
def withAnimation (a : Animation)
    (body : Animation → Sys → Except ε β × Animation × Sys) (s : Sys) :
    Except ε β × Animation × Sys :=
  let (a₁, s₁) := a.enter s
  let (r, a₂, s₂) := body a₁ s₁
  let (a₃, s₃) := a₂.exit s₂
  (r, a₃, s₃)

/-- The decorator: wrapped runs func inside a with-block over a fresh
Animation.  The callable is modelled as a function from its argument and the
world to a result (a value or a raised error) and the world it leaves; the
final Animation, discarded by the source, is kept for observability. -/
def wait_for_it (func : α → Sys → Except ε β × Sys) (x : α) (s : Sys) :
    Except ε β × Animation × Sys :=
  withAnimation Animation.init
    (fun a σ =>
      let (r, σ₁) := func x σ
      (r, a, σ₁)) s

/-- Expected trace of n uninterrupted loop iterations starting at cursor c:
each iteration prints the cycle frame at the cursor with a carriage-return
terminator and flush, then sleeps 75 milliseconds. -/
def loopTrace (c : Nat) : Nat → List Event
  | 0 => []
  | n + 1 =>
    printCR (symbolFrames.getD (c % symbolFrames.length) "") ::
      Event.sleep 75 :: loopTrace (c + 1) n

/-- Timing model of the race between the background loop and stop.  The
atomic actions of loop iteration i occupy the global slots 3*i (the
while-check of finished), 3*i + 1 (the print of the frame) and 3*i + 2 (the
sleep); stopPos is the slot from which the flag write of stop is visible.
The check at slot 3*i therefore observes finished exactly when
stopPos ≤ 3*i, and iteration i runs, printing at slot 3*i + 1, exactly when
3*i < stopPos.  This list collects the iterations among the first n that
still print. -/
def printingIters (stopPos n : Nat) : List Nat :=
  (List.range n).filter (fun i => decide (3 * i < stopPos))

/-- Flag values the while-checks observe under the slot model: the check of
iteration i, at slot 3*i, reads true exactly when stopPos ≤ 3*i. -/
def stopSched (stopPos n : Nat) : List Bool :=
  (List.range n).map (fun i => decide (stopPos ≤ 3 * i))

theorem animateSched_false (n : Nat) :
    ∀ s : Sys, animateSched (List.replicate n false) s =
      { cursor := s.cursor + n, output := s.output ++ loopTrace s.cursor n } := by
  induction n with
  | zero => intro s; simp [animateSched, loopTrace]
  | succ n ih =>
    intro s
    simp only [List.replicate_succ, animateSched, nextSymbol, if_neg Bool.false_ne_true,
      loopTrace, ih, Sys.mk.injEq]
    constructor
    · omega
    · simp

theorem stopN_output (n : Nat) :
    ∀ (a : Animation) (s : Sys), (a.stopN n s).2 =
      { s with output := s.output ++ List.replicate n (printCR clearFrame) } := by
  induction n with
  | zero => intro a s; simp [Animation.stopN]
  | succ n ih =>
    intro a s
    simp [Animation.stopN, Animation.stop, ih, List.replicate_succ]

theorem stopN_fst (n : Nat) :
    ∀ (a : Animation) (s : Sys), (a.stopN (n + 1) s).1 = { finished := true } := by
  induction n with
  | zero => intro a s; simp [Animation.stopN, Animation.stop]
  | succ n ih =>
    intro a s
    exact ih { a with finished := true } ((a.stop s).2)

/-- C1: For every callable func and every argument, invoking the wrapped
callable produced by wait_for_it(func) returns exactly the value that the
call of func returns. -/
theorem wait_for_it_value_passthrough
    (func : α → Sys → Except ε β × Sys) (x : α) (s σ₂ : Sys) (v : β)
    (h : func x ((Animation.init.enter s).2) = (Except.ok v, σ₂)) :
    (wait_for_it func x s).1 = Except.ok v := by
  simp only [Animation.enter, Animation.start, Animation.init] at h
  simp [wait_for_it, withAnimation, Animation.enter, Animation.start, Animation.exit,
    Animation.stop, Animation.init, h]

theorem wait_for_it_value_passthrough_witness :
    (fun (p : Nat × Nat × Nat) (σ : Sys) =>
        ((Except.ok (p.1 + p.2.1 + p.2.2) : Except String Nat), σ)) (1, 2, 3)
      ((Animation.init.enter { cursor := 0, output := [] }).2) =
      (Except.ok 6, { cursor := 0, output := [Event.spawn] }) ∧
    (wait_for_it
        (fun (p : Nat × Nat × Nat) (σ : Sys) =>
          ((Except.ok (p.1 + p.2.1 + p.2.2) : Except String Nat), σ))
        (1, 2, 3) { cursor := 0, output := [] }).1 = Except.ok 6 :=
  ⟨rfl, wait_for_it_value_passthrough _ (1, 2, 3) _ _ 6 rfl⟩

/-- C2: For every callable func that raises an error, the wrapped callable
produced by wait_for_it(func) propagates that same error unchanged to the
caller, and the cleanup of stop — finished set to true and the clearing
frame written — has happened by the time the error reaches the caller: the
returned world ends with the clearing write appended after everything the
body emitted. -/
theorem wait_for_it_error_cleanup
    (func : α → Sys → Except ε β × Sys) (x : α) (s σ₂ : Sys) (e : ε)
    (h : func x ((Animation.init.enter s).2) = (Except.error e, σ₂)) :
    wait_for_it func x s =
      (Except.error e, { finished := true },
       { σ₂ with output := σ₂.output ++ [printCR clearFrame] }) := by
  simp only [Animation.enter, Animation.start, Animation.init] at h
  simp [wait_for_it, withAnimation, Animation.enter, Animation.start, Animation.exit,
    Animation.stop, Animation.init, h]

theorem wait_for_it_error_cleanup_witness :
    (fun (_ : Nat) (σ : Sys) => ((Except.error "x" : Except String Nat), σ)) 0
      ((Animation.init.enter { cursor := 0, output := [] }).2) =
      (Except.error "x", { cursor := 0, output := [Event.spawn] }) ∧
    wait_for_it (fun (_ : Nat) (σ : Sys) => ((Except.error "x" : Except String Nat), σ))
        0 { cursor := 0, output := [] } =
      (Except.error "x", { finished := true },
       { cursor := 0, output := [Event.spawn, printCR clearFrame] }) :=
  ⟨rfl, wait_for_it_error_cleanup _ 0 _ { cursor := 0, output := [Event.spawn] } "x" rfl⟩

/-- C3: For every Animation instance used as a scoped resource, entry calls
start and yields the instance itself, exit is exactly stop, and the
with-statement runs the body on the yielded instance and then applies stop
to whatever the body produced — unconditionally, whether the body finished
normally, stopped the animation early, or finished with an error. -/
theorem animation_scoped_resource (a : Animation)
    (body : Animation → Sys → Except ε β × Animation × Sys) (s : Sys) :
    (a.enter s).1 = a ∧
    (a.enter s).2 = (a.start s).2 ∧
    a.exit s = a.stop s ∧
    withAnimation a body s =
      ((body a ((a.start s).2)).1,
       ((body a ((a.start s).2)).2.1.stop ((body a ((a.start s).2)).2.2)).1,
       ((body a ((a.start s).2)).2.1.stop ((body a ((a.start s).2)).2.2)).2) :=
  ⟨rfl, rfl, rfl, rfl⟩

/-- C4: stop is idempotent: any positive number of successive calls of stop
leaves finished true, and each call writes the clearing frame again (the
model is a total function: no call raises). -/
theorem stop_idempotent (a : Animation) (s : Sys) (n : Nat) (h : 1 ≤ n) :
    (a.stopN n s).1.finished = true ∧
    (a.stopN n s).2.output = s.output ++ List.replicate n (printCR clearFrame) := by
  obtain ⟨m, rfl⟩ : ∃ m, n = m + 1 := ⟨n - 1, by omega⟩
  refine ⟨?_, ?_⟩
  · rw [stopN_fst]
  · rw [stopN_output]

theorem stop_idempotent_witness :
    1 ≤ 3 ∧
    (((Animation.mk false).stopN 3 { cursor := 0, output := [] }).1.finished = true ∧
     ((Animation.mk false).stopN 3 { cursor := 0, output := [] }).2.output =
       ({ cursor := 0, output := ([] : List Event) } : Sys).output ++
         List.replicate 3 (printCR clearFrame)) :=
  ⟨by decide, stop_idempotent ⟨false⟩ { cursor := 0, output := [] } 3 (by decide)⟩

/-- C5: the finished flag transitions only from false to true: the
constructor creates it false, start and entry leave it unchanged, and stop
and exit set it true; no operation resets it.  Consequently a loop whose
checks all read true — the situation after stop — exits at its first check
without printing any frame or changing anything. -/
theorem finished_monotone (a : Animation) (s : Sys) (n : Nat) :
    Animation.init.finished = false ∧
    (a.start s).1.finished = a.finished ∧
    (a.enter s).1.finished = a.finished ∧
    (a.stop s).1.finished = true ∧
    (a.exit s).1.finished = true ∧
    animateSched (List.replicate n true) s = s := by
  refine ⟨rfl, rfl, rfl, rfl, rfl, ?_⟩
  cases n <;> rfl

/-- C6: while the checks read false, each loop iteration takes the next
frame of the shared cycle, prints it with sep empty, a carriage-return
terminator instead of a newline and an immediate flush, then sleeps a fixed
75 milliseconds; a check reading true ends the loop at once. -/
theorem animate_loop_behavior (n : Nat) (s : Sys) :
    animateSched (List.replicate n false) s =
      { cursor := s.cursor + n, output := s.output ++ loopTrace s.cursor n } ∧
    ∀ sched : List Bool, animateSched (true :: sched) s = s :=
  ⟨animateSched_false n s, fun _ => rfl⟩

/-- C8: every frame of one full cycle of the symbol sequence has length 10,
the clearing string written by stop has length 10, and the clearing string
is at least as wide as every frame. -/
theorem frame_width_invariant :
    (∀ f ∈ symbolFrames, f.length = 10) ∧
    clearFrame.length = 10 ∧
    ∀ f ∈ symbolFrames, f.length ≤ clearFrame.length := by
  decide

/-- C9: the symbol cycle is process-wide shared state, not per-instance: an
Animation instance consists of nothing but its finished flag (so creating
one cannot reset the cursor), start leaves the shared cursor untouched, and
after a loop has drawn k frames — through whichever instance — the next
frame taken from the cycle, by any instance, is the one k positions past
the old cursor (nextSymbol reads only the shared state; it takes no
instance argument because symbol is a class attribute). -/
theorem symbol_cycle_shared (a : Animation) (s : Sys) (k : Nat) :
    Animation.init = { finished := false } ∧
    (a.start s).2.cursor = s.cursor ∧
    (nextSymbol (animateSched (List.replicate k false) s)).1 =
      symbolFrames.getD ((s.cursor + k) % symbolFrames.length) "" ∧
    (nextSymbol (animateSched (List.replicate k false) s)).2.cursor = s.cursor + k + 1 := by
  refine ⟨rfl, rfl, ?_, ?_⟩ <;> rw [animateSched_false] <;> rfl

/-- C10: calling stop on a freshly constructed Animation that was never
started is safe: finished becomes true and the clearing frame is written,
and this is exactly the effect stop has on any instance whatever its
history (the model is a total function: no call raises). -/
theorem stop_without_start (s : Sys) :
    (Animation.init.stop s).1.finished = true ∧
    (Animation.init.stop s).2 = { s with output := s.output ++ [printCR clearFrame] } ∧
    ∀ (a : Animation) (σ : Sys), a.stop σ =
      ({ finished := true }, { σ with output := σ.output ++ [printCR clearFrame] }) :=
  ⟨rfl, rfl, fun _ _ => rfl⟩

theorem printingIters_zero (n : Nat) : printingIters 0 n = [] := by
  simp [printingIters]

theorem stopSched_succ (stopPos n : Nat) :
    stopSched stopPos (n + 1) = decide (stopPos ≤ 0) :: stopSched (stopPos - 3) n := by
  unfold stopSched
  rw [List.range_succ_eq_map, List.map_cons, List.map_map]
  congr 1
  simp only [List.map_inj_left, Function.comp_apply]
  intro a ha
  rw [decide_eq_decide]
  omega

theorem printingIters_succ_length (stopPos n : Nat) :
    (printingIters stopPos (n + 1)).length =
      (if 0 < stopPos then 1 else 0) + (printingIters (stopPos - 3) n).length := by
  unfold printingIters
  rw [List.range_succ_eq_map, List.filter_cons, List.filter_map]
  have hlen : (List.filter ((fun i => decide (3 * i < stopPos)) ∘ Nat.succ) (List.range n)).length
      = (List.filter (fun i => decide (3 * i < stopPos - 3)) (List.range n)).length := by
    refine congrArg List.length (List.filter_congr fun i _ => ?_)
    simp only [Function.comp_apply]
    rw [decide_eq_decide]
    omega
  by_cases h : 0 < stopPos
  · rw [if_pos (by simpa using h), if_pos h, List.length_cons, List.length_map, hlen]
    omega
  · rw [if_neg (by simpa using h), if_neg h, List.length_map, hlen]
    omega

theorem animateSched_stopSched (n : Nat) :
    ∀ (stopPos : Nat) (s : Sys),
      (animateSched (stopSched stopPos n) s).output.length =
        s.output.length + 2 * (printingIters stopPos n).length := by
  induction n with
  | zero => intro p s; simp [stopSched, printingIters, animateSched]
  | succ n ih =>
    intro p s
    rw [stopSched_succ, printingIters_succ_length]
    by_cases hp : 0 < p
    · have hd : (decide (p ≤ 0)) = false := by simp; omega
      rw [hd]
      show (animateSched (stopSched (p - 3) n) _).output.length = _
      rw [ih]
      simp only [nextSymbol, List.length_append, List.length_cons, List.length_nil, if_pos hp]
      omega
    · have hp0 : p = 0 := by omega
      subst hp0
      show s.output.length = _
      rw [printingIters_zero]
      simp

theorem late_prints_le_one (stopPos : Nat) :
    ∀ n, ((List.range n).filter
        (fun i => decide (stopPos ≤ 3 * i + 1) && decide (3 * i < stopPos))).length ≤ 1 := by
  intro n
  induction n with
  | zero => simp
  | succ n ih =>
    rw [List.range_succ, List.filter_append, List.length_append]
    by_cases h : (decide (stopPos ≤ 3 * n + 1) && decide (3 * n < stopPos)) = true
    · have hnil : (List.range n).filter
          (fun i => decide (stopPos ≤ 3 * i + 1) && decide (3 * i < stopPos)) = [] := by
        rw [List.filter_eq_nil_iff]
        intro i hi
        rw [List.mem_range] at hi
        simp only [Bool.and_eq_true, decide_eq_true_eq] at h ⊢
        omega
      rw [hnil, List.filter_cons, if_pos h]
      simp
    · rw [List.filter_cons, if_neg h]
      simpa using ih

theorem printingIters_stable (stopPos n : Nat) :
    printingIters stopPos (stopPos + n) = printingIters stopPos stopPos := by
  induction n with
  | zero => rfl
  | succ n ih =>
    rw [← ih]
    show printingIters stopPos ((stopPos + n) + 1) = _
    unfold printingIters
    rw [List.range_succ, List.filter_append]
    have h : (decide (3 * (stopPos + n) < stopPos)) = false := by simp; omega
    rw [List.filter_cons, if_neg (by simp [h])]
    simp

/-- C7: once the flag write of stop is visible (slot model: from slot
stopPos on, where the atomic actions of loop iteration i are the check at
slot 3*i, the print at slot 3*i + 1 and the sleep at slot 3*i + 2), the
loop prints at most one more frame: among the iterations that still print —
those whose check already passed, 3*i < stopPos — at most one print lands
at or after stopPos.  The loop then terminates: extending it by any number
of iterations beyond stopPos adds no printing iteration.  And under the
flag observations of the slot model the loop emits exactly two events (one
print, one sleep) per printing iteration, tying the slot model to the loop
body. -/
theorem stop_bounded_race (stopPos n : Nat) (s : Sys) :
    ((printingIters stopPos n).filter (fun i => decide (stopPos ≤ 3 * i + 1))).length ≤ 1 ∧
    printingIters stopPos (stopPos + n) = printingIters stopPos stopPos ∧
    (animateSched (stopSched stopPos n) s).output.length =
      s.output.length + 2 * (printingIters stopPos n).length := by
  refine ⟨?_, printingIters_stable stopPos n, animateSched_stopSched n stopPos s⟩
  unfold printingIters
  rw [List.filter_filter]
  exact late_prints_le_one stopPos n
